import Mathlib

/-!
Verification of the Sincro table-synchronization engine.

The definitions below are a shallow embedding of the Python sources:
`sync.py` (TableSynchronizer and SyncOrchestrator), `metadata.py`
(SyncMetadataManager) and `schema.py` (SchemaBuilder).  Database rows are
modelled as total functions from column names to integer values; a SQL
query with a WHERE clause is modelled as `List.filter` with the configured
row predicate, and the Python `set()` used for primary-key lookups is
modelled as a duplicate-free list built by the same insertion loop.
-/

namespace Sincro

/-- A database row: total assignment of values to column names
(dynamic attribute access `getattr(row, col)` in the source). -/
abbrev Row := String → Int

/-- A primary-key tuple, as built by `tuple([getattr(row, col) for col in pk_columns])`. -/
abbrev PKey := List Int

/-- Catalog information for one column of the synchronized table, as read
from `sys.columns` joined with `sys.types` (columns are listed in
`column_id` order). -/
structure Column where
  name : String
  is_computed : Bool
  is_identity : Bool
  type_name : String
deriving DecidableEq

/-- Build the primary-key tuple of a row (`tuple([getattr(row, col) for col in pk_columns])`). -/
def pk_of (pk_columns : List String) (r : Row) : PKey :=
  pk_columns.map r

/-- Model of building a Python `set` of keys by iterated insertion
(`s = set(); for k in ks: s.add(k)`): a list with duplicates skipped. -/
def key_set (ks : List PKey) : List PKey :=
  ks.foldl (fun s k => if k ∈ s then s else s ++ [k]) []

/-- Filter from `TableSynchronizer._get_insertable_columns`: the SQL query
keeps columns with `is_computed = 0`, `is_identity = 0` and a type other
than `timestamp`/`rowversion`. -/
def is_insertable_column (c : Column) : Bool :=
  !c.is_computed && !c.is_identity &&
    decide (c.type_name ≠ "timestamp") && decide (c.type_name ≠ "rowversion")

/-- Embedding of `TableSynchronizer._get_insertable_columns`. -/
def get_insertable_columns (cols : List Column) : List String :=
  (cols.filter is_insertable_column).map Column.name

/-- Embedding of `TableSynchronizer._insert_missing_records`: collect the
destination primary-key set (dest fetch has no WHERE clause), fetch all
source rows honoring the configured row filter, keep those whose key is
absent from the destination set, and queue their projection onto the
insertable column list. -/
def insert_missing_records (insertable_cols pk_columns : List String)
    (filt : Row → Bool) (source_tbl dest_tbl : List Row) : List (List Int) :=
  let dest_pk_set := key_set (dest_tbl.map (pk_of pk_columns))
  let all_source_rows := source_tbl.filter filt
  (all_source_rows.filter (fun r => decide (pk_of pk_columns r ∉ dest_pk_set))).map
    (fun r => insertable_cols.map r)

/-- Embedding of `TableSynchronizer._perform_inserts`, which resolves the
insertable columns and delegates to `_insert_missing_records`. -/
def perform_inserts (cols : List Column) (pk_columns : List String)
    (filt : Row → Bool) (source_tbl dest_tbl : List Row) : List (List Int) :=
  insert_missing_records (get_insertable_columns cols) pk_columns filt source_tbl dest_tbl

/-- Columns compared by the update phase
(`compare_cols = [col for col in insertable_cols if col not in pk_columns]`). -/
def compare_columns (cols : List Column) (pk_columns : List String) : List String :=
  (get_insertable_columns cols).filter (fun c => decide (c ∉ pk_columns))

/-- One assignment `dest_dict[pk_key] = row` of the destination-index
loop: the new binding shadows whatever the map held for that key. -/
def dict_step (pk_columns : List String) (m : PKey → Option Row) (r : Row) :
    PKey → Option Row :=
  fun k => if k = pk_of pk_columns r then some r else m k

/-- Model of the Python dict `dest_dict[pk_key] = row` built by iterating
the destination rows: a later row with the same key overwrites an earlier
one. -/
def dest_dict (pk_columns : List String) (dest_rows : List Row) : PKey → Option Row :=
  dest_rows.foldl (dict_step pk_columns) (fun _ => none)

/-- Embedding of `TableSynchronizer._perform_updates`: fetch filtered
source rows and all destination rows, index destination by primary key,
and queue every source row that matches a destination key but differs in
at least one compare column. -/
def perform_updates (cols : List Column) (pk_columns : List String)
    (filt : Row → Bool) (source_tbl dest_tbl : List Row) : List Row :=
  let compare_cols := compare_columns cols pk_columns
  if compare_cols.isEmpty then []
  else
    let source_rows := source_tbl.filter filt
    let dest_lookup := dest_dict pk_columns dest_tbl
    source_rows.filter (fun s =>
      match dest_lookup (pk_of pk_columns s) with
      | some d => compare_cols.any (fun c => decide (s c ≠ d c))
      | none => false)

/-- Embedding of `TableSynchronizer._perform_deletes`: fetch the source
primary keys with the configured WHERE clause, fetch the destination keys
with the same query (same WHERE clause), and queue every destination key
absent from the source key set. -/
def perform_deletes (pk_columns : List String) (filt : Row → Bool)
    (source_tbl dest_tbl : List Row) : List PKey :=
  let source_pks := (source_tbl.filter filt).map (pk_of pk_columns)
  let source_pk_set := key_set source_pks
  let dest_pks := (dest_tbl.filter filt).map (pk_of pk_columns)
  dest_pks.filter (fun k => decide (k ∉ source_pk_set))

/-- Per-run statistics dictionary (`stats` in `TableSynchronizer`). -/
structure SyncStats where
  inserted : Int
  updated : Int
  deleted : Int
  errors : Int
deriving DecidableEq

/-- One diff-and-apply phase of a table synchronization. -/
inductive SyncPhase
  | inserts
  | updates
  | deletes
deriving DecidableEq

/-- Result of one strategy method: the three queued change sets, the
statistics returned to `synchronize`, and the order in which the phases
were invoked. -/
structure SyncRun where
  insert_queue : List (List Int)
  update_queue : List Row
  delete_queue : List PKey
  stats : SyncStats
  trace : List SyncPhase

/-- Embedding of `TableSynchronizer._sync_with_rowversion`: inserts, then
updates, then deletes. -/
def sync_with_rowversion (cols : List Column) (pk_columns : List String)
    (filt : Row → Bool) (source_tbl dest_tbl : List Row) : SyncRun :=
  let ins := perform_inserts cols pk_columns filt source_tbl dest_tbl
  let upd := perform_updates cols pk_columns filt source_tbl dest_tbl
  let del := perform_deletes pk_columns filt source_tbl dest_tbl
  { insert_queue := ins
    update_queue := upd
    delete_queue := del
    stats := ⟨(ins.length : Int), (upd.length : Int), (del.length : Int), 0⟩
    trace := [SyncPhase.inserts, SyncPhase.updates, SyncPhase.deletes] }

/-- Embedding of `TableSynchronizer._sync_with_hash`: inserts, then
updates, then deletes. -/
def sync_with_hash (cols : List Column) (pk_columns : List String)
    (filt : Row → Bool) (source_tbl dest_tbl : List Row) : SyncRun :=
  let ins := perform_inserts cols pk_columns filt source_tbl dest_tbl
  let upd := perform_updates cols pk_columns filt source_tbl dest_tbl
  let del := perform_deletes pk_columns filt source_tbl dest_tbl
  { insert_queue := ins
    update_queue := upd
    delete_queue := del
    stats := ⟨(ins.length : Int), (upd.length : Int), (del.length : Int), 0⟩
    trace := [SyncPhase.inserts, SyncPhase.updates, SyncPhase.deletes] }

/-- Strategy dispatch in `TableSynchronizer.synchronize` (step 4): the
rowversion strategy selects `_sync_with_rowversion`, anything else falls
through to `_sync_with_hash`. -/
def run_sync_strategy (change_detection_strategy : String) (cols : List Column)
    (pk_columns : List String) (filt : Row → Bool)
    (source_tbl dest_tbl : List Row) : SyncRun :=
  if change_detection_strategy = "rowversion" then
    sync_with_rowversion cols pk_columns filt source_tbl dest_tbl
  else
    sync_with_hash cols pk_columns filt source_tbl dest_tbl

/-- Ordering of `sys.index_columns` rows by `key_ordinal`, the `ORDER BY`
of the primary-key detection query. -/
def ordinal_le (a b : String × Nat) : Prop :=
  a.2 ≤ b.2

instance : DecidableRel ordinal_le :=
  fun a b => Nat.decLe a.2 b.2

instance : IsTotal (String × Nat) ordinal_le :=
  ⟨fun a b => Nat.le_total a.2 b.2⟩

instance : IsTrans (String × Nat) ordinal_le :=
  ⟨fun _ _ _ h1 h2 => Nat.le_trans h1 h2⟩

/-- Embedding of `TableSynchronizer._get_primary_key_columns`.  The
configured list wins when non-empty; otherwise the source primary-key
constraint rows (column name paired with its key ordinal) are returned in
`ORDER BY key_ordinal` order, and an empty result raises a `ValueError`
with the no-primary-key message. -/
def get_primary_key_columns (configured : List String)
    (pk_constraint_rows : List (String × Nat)) : Except String (List String) :=
  if configured ≠ [] then Except.ok configured
  else
    let pk_columns := (List.insertionSort ordinal_le pk_constraint_rows).map Prod.fst
    if pk_columns = [] then
      Except.error "No se pudo detectar clave primaria. Configure manualmente las columnas PK."
    else
      Except.ok pk_columns

/-- Per-table configuration flags consumed by `SyncOrchestrator.synchronize_tables`. -/
structure TableSyncConfig where
  full_name : String
  is_selected : Bool
  sync_enabled : Bool
deriving DecidableEq

/-- Aggregate dictionary `total_stats` returned by
`SyncOrchestrator.synchronize_tables`. -/
structure TotalStats where
  total_tables : Nat
  successful : Nat
  failed : Nat
  total_inserted : Int
  total_updated : Int
  total_deleted : Int
  errors : List String
deriving DecidableEq

/-- Loop body of `SyncOrchestrator.synchronize_tables`: skip configs that
are not both selected and enabled, accumulate statistics on success, and
record an error entry (continuing with the next table) on failure.  The
outcome of one table sync — `synchronizer.synchronize()` returning stats
or raising — is abstracted as `run`. -/
def synchronize_tables_loop (run : TableSyncConfig → Except String SyncStats) :
    List TableSyncConfig → TotalStats → TotalStats
  | [], acc => acc
  | config :: rest, acc =>
    if config.is_selected && config.sync_enabled then
      match run config with
      | Except.ok stats =>
        synchronize_tables_loop run rest
          { acc with
            successful := acc.successful + 1
            total_inserted := acc.total_inserted + stats.inserted
            total_updated := acc.total_updated + stats.updated
            total_deleted := acc.total_deleted + stats.deleted }
      | Except.error e =>
        synchronize_tables_loop run rest
          { acc with
            failed := acc.failed + 1
            errors := acc.errors ++ [config.full_name ++ ": " ++ e] }
    else
      synchronize_tables_loop run rest acc

/-- Embedding of `SyncOrchestrator.synchronize_tables`: the accumulator is
initialised with `total_tables = len(table_configs)` and zeroed counters. -/
def synchronize_tables (run : TableSyncConfig → Except String SyncStats)
    (table_configs : List TableSyncConfig) : TotalStats :=
  synchronize_tables_loop run table_configs
    { total_tables := table_configs.length
      successful := 0
      failed := 0
      total_inserted := 0
      total_updated := 0
      total_deleted := 0
      errors := [] }

/-- Predicate for a config the orchestrator actually processes. -/
def is_attempted (config : TableSyncConfig) : Bool :=
  config.is_selected && config.sync_enabled

/-- Whether one table sync returned normally. -/
def except_ok (r : Except String SyncStats) : Bool :=
  match r with
  | Except.ok _ => true
  | Except.error _ => false

/-- Statistics carried by a normal return (zero on failure). -/
def ok_stats (r : Except String SyncStats) : SyncStats :=
  match r with
  | Except.ok s => s
  | Except.error _ => ⟨0, 0, 0, 0⟩

/-- Error text carried by a failing table sync. -/
def err_text (r : Except String SyncStats) : String :=
  match r with
  | Except.ok _ => ""
  | Except.error e => e

/-- One row of the persisted `SyncMetadata` ledger table, restricted to
the fields touched by `update_sync_status` and `reset_table_metadata`
(timestamps are maintained by `GETDATE()` on the server and are out of
scope). -/
structure SyncMetadata where
  schema_name : String
  table_name : String
  last_sync_status : String
  records_inserted : Int
  records_updated : Int
  records_deleted : Int
  last_error_message : Option String
  last_rowversion_synced : Option Int
  last_hash_synced : Option String
deriving DecidableEq

/-- Embedding of `SyncMetadataManager.update_sync_status`: both SQL
branches add the passed amounts to the stored counters and overwrite the
status; the branch with an error message stores it, the other clears it. -/
def update_sync_status (m : SyncMetadata) (status : String)
    (records_inserted records_updated records_deleted : Int)
    (error_message : Option String) : SyncMetadata :=
  match error_message with
  | some e =>
    { m with
      last_sync_status := status
      records_inserted := m.records_inserted + records_inserted
      records_updated := m.records_updated + records_updated
      records_deleted := m.records_deleted + records_deleted
      last_error_message := some e }
  | none =>
    { m with
      last_sync_status := status
      records_inserted := m.records_inserted + records_inserted
      records_updated := m.records_updated + records_updated
      records_deleted := m.records_deleted + records_deleted
      last_error_message := none }

/-- Embedding of `SyncMetadataManager.reset_table_metadata`: zero the
cumulative counters and clear watermarks and last error. -/
def reset_table_metadata (m : SyncMetadata) : SyncMetadata :=
  { m with
    last_rowversion_synced := none
    last_hash_synced := none
    records_inserted := 0
    records_updated := 0
    records_deleted := 0
    last_error_message := none }

/-- Embedding of the tail of `TableSynchronizer.synchronize`: `stats` is
initialised to all zeros and reassigned only when the whole strategy
method returns; on success the ledger records `SUCCESS` with the returned
amounts, on an exception the handler records `ERROR` with the still-zero
`stats` and re-raises.  The strategy outcome is abstracted as an
`Except` value. -/
def synchronize_outcome (ledger : SyncMetadata)
    (strategy_result : Except String SyncStats) :
    SyncMetadata × Except String SyncStats :=
  let stats : SyncStats := ⟨0, 0, 0, 0⟩
  match strategy_result with
  | Except.ok s =>
    (update_sync_status ledger "SUCCESS" s.inserted s.updated s.deleted none,
     Except.ok s)
  | Except.error e =>
    (update_sync_status ledger "ERROR" stats.inserted stats.updated stats.deleted (some e),
     Except.error e)

/-- Type information of one extracted column as consumed by
`SchemaBuilder._get_column_type` (`max_length` is the byte length from
`sys.columns`, with `-1` as the unlimited sentinel). -/
structure ColumnTypeInfo where
  type_name : String
  max_length : Int
  precision : Nat
  scale : Nat
deriving DecidableEq

/-- Model of Python `type_name.startswith('n')`: the first character of
the string is `n`. -/
def starts_with_n (s : String) : Bool :=
  match s.data with
  | [] => false
  | c :: _ => c = 'n'

/-- Embedding of `SchemaBuilder._get_column_type`: variable-length types
render `MAX` on the `-1` sentinel and otherwise the stored length, halved
(Python floor division) for types whose name starts with `n`;
decimal/numeric render precision and scale; time/datetime2/datetimeoffset
render the fractional-seconds scale; everything else renders bare. -/
def get_column_type (col : ColumnTypeInfo) : String :=
  if col.type_name ∈ (["char", "varchar", "nchar", "nvarchar", "binary", "varbinary"] : List String) then
    if col.max_length = -1 then
      "[" ++ col.type_name ++ "](MAX)"
    else
      let length : Int :=
        if starts_with_n col.type_name then Int.fdiv col.max_length 2 else col.max_length
      "[" ++ col.type_name ++ "](" ++ toString length ++ ")"
  else if col.type_name ∈ (["decimal", "numeric"] : List String) then
    "[" ++ col.type_name ++ "](" ++ toString col.precision ++ "," ++ toString col.scale ++ ")"
  else if col.type_name ∈ (["time", "datetime2", "datetimeoffset"] : List String) then
    "[" ++ col.type_name ++ "](" ++ toString col.scale ++ ")"
  else
    "[" ++ col.type_name ++ "]"

/-! Helper lemmas about the set, dict and column models. -/

theorem foldl_key_set_mem (ks : List PKey) (acc : List PKey) (k : PKey) :
    k ∈ ks.foldl (fun s x => if x ∈ s then s else s ++ [x]) acc ↔ k ∈ acc ∨ k ∈ ks := by
  induction ks generalizing acc with
  | nil => simp
  | cons x xs ih =>
    simp only [List.foldl_cons, List.mem_cons]
    by_cases hx : x ∈ acc
    · rw [if_pos hx, ih]
      constructor
      · rintro (h | h)
        · exact Or.inl h
        · exact Or.inr (Or.inr h)
      · rintro (h | h | h)
        · exact Or.inl h
        · exact Or.inl (h ▸ hx)
        · exact Or.inr h
    · rw [if_neg hx, ih]
      simp only [List.mem_append, List.mem_singleton]
      tauto

theorem mem_key_set (ks : List PKey) (k : PKey) : k ∈ key_set ks ↔ k ∈ ks := by
  unfold key_set
  rw [foldl_key_set_mem]
  simp

theorem is_insertable_column_iff (c : Column) :
    is_insertable_column c = true ↔
      c.is_computed = false ∧ c.is_identity = false ∧
        c.type_name ≠ "timestamp" ∧ c.type_name ≠ "rowversion" := by
  simp [is_insertable_column, and_assoc]

theorem mem_get_insertable_columns (cols : List Column) (c : String) :
    c ∈ get_insertable_columns cols ↔
      ∃ col ∈ cols, col.name = c ∧ col.is_computed = false ∧ col.is_identity = false ∧
        col.type_name ≠ "timestamp" ∧ col.type_name ≠ "rowversion" := by
  simp only [get_insertable_columns, List.mem_map, List.mem_filter]
  constructor
  · rintro ⟨col, ⟨hmem, hins⟩, hname⟩
    exact ⟨col, hmem, hname, (is_insertable_column_iff col).mp hins⟩
  · rintro ⟨col, hmem, hname, hprops⟩
    exact ⟨col, ⟨hmem, (is_insertable_column_iff col).mpr hprops⟩, hname⟩

theorem dict_foldl_of_forall_ne (pk_columns : List String) (rows : List Row) (k : PKey)
    (m : PKey → Option Row) (h : ∀ r ∈ rows, pk_of pk_columns r ≠ k) :
    rows.foldl (dict_step pk_columns) m k = m k := by
  induction rows generalizing m with
  | nil => rfl
  | cons r rest ih =>
    simp only [List.foldl_cons]
    rw [ih _ (fun x hx => h x (List.mem_cons_of_mem _ hx))]
    exact if_neg (Ne.symm (h r (List.mem_cons_self _ _)))

theorem dict_foldl_eq_some (pk_columns : List String) (rows : List Row) (d : Row)
    (m : PKey → Option Row) (hnd : (rows.map (pk_of pk_columns)).Nodup) (hd : d ∈ rows) :
    rows.foldl (dict_step pk_columns) m (pk_of pk_columns d) = some d := by
  induction rows generalizing m with
  | nil => cases hd
  | cons r rest ih =>
    rw [List.map_cons, List.nodup_cons] at hnd
    simp only [List.foldl_cons]
    rcases List.mem_cons.mp hd with h | h
    · subst h
      rw [dict_foldl_of_forall_ne pk_columns rest _ _ ?hne]
      · exact if_pos rfl
      case hne =>
        intro x hx hpk
        exact hnd.1 (hpk ▸ List.mem_map_of_mem (pk_of pk_columns) hx)
    · exact ih _ hnd.2 h

theorem dict_foldl_some_mem (pk_columns : List String) (rows : List Row) (k : PKey) (d : Row)
    (m : PKey → Option Row) (h : rows.foldl (dict_step pk_columns) m k = some d) :
    (d ∈ rows ∧ pk_of pk_columns d = k) ∨ m k = some d := by
  induction rows generalizing m with
  | nil => exact Or.inr h
  | cons r rest ih =>
    simp only [List.foldl_cons] at h
    rcases ih _ h with ⟨hmem, hpk⟩ | hm
    · exact Or.inl ⟨List.mem_cons_of_mem _ hmem, hpk⟩
    · have hm2 : (if k = pk_of pk_columns r then some r else m k) = some d := hm
      by_cases hk : k = pk_of pk_columns r
      · rw [if_pos hk] at hm2
        cases hm2
        exact Or.inl ⟨List.mem_cons_self _ _, hk.symm⟩
      · rw [if_neg hk] at hm2
        exact Or.inr hm2

theorem dest_dict_eq_none (pk_columns : List String) (rows : List Row) (k : PKey)
    (h : ∀ r ∈ rows, pk_of pk_columns r ≠ k) :
    dest_dict pk_columns rows k = none :=
  dict_foldl_of_forall_ne pk_columns rows k _ h

theorem dest_dict_eq_some (pk_columns : List String) (rows : List Row) (d : Row)
    (hnd : (rows.map (pk_of pk_columns)).Nodup) (hd : d ∈ rows) :
    dest_dict pk_columns rows (pk_of pk_columns d) = some d :=
  dict_foldl_eq_some pk_columns rows d _ hnd hd

theorem dest_dict_some_mem (pk_columns : List String) (rows : List Row) (k : PKey) (d : Row)
    (h : dest_dict pk_columns rows k = some d) :
    d ∈ rows ∧ pk_of pk_columns d = k := by
  rcases dict_foldl_some_mem pk_columns rows k d _ h with hok | hnone
  · exact hok
  · cases hnone

/-- C2: for every source row of the filter-scoped fetch whose primary-key
tuple is absent from the destination primary-key set, the insert phase
queues exactly one insert (the queue is exactly the projection of those
rows, one entry per row), and the inserted column list is exactly the
insertable columns: all columns excluding computed, identity and
timestamp/rowversion columns. -/
theorem insert_phase_exactly_missing_rows (cols : List Column) (pk_columns : List String)
    (filt : Row → Bool) (source_tbl dest_tbl : List Row) :
    perform_inserts cols pk_columns filt source_tbl dest_tbl =
      ((source_tbl.filter filt).filter
        (fun r => decide (pk_of pk_columns r ∉ dest_tbl.map (pk_of pk_columns)))).map
        (fun r => (get_insertable_columns cols).map r) ∧
    (perform_inserts cols pk_columns filt source_tbl dest_tbl).length =
      (source_tbl.filter filt).countP
        (fun r => decide (pk_of pk_columns r ∉ dest_tbl.map (pk_of pk_columns))) ∧
    ∀ c : String, c ∈ get_insertable_columns cols ↔
      ∃ col ∈ cols, col.name = c ∧ col.is_computed = false ∧ col.is_identity = false ∧
        col.type_name ≠ "timestamp" ∧ col.type_name ≠ "rowversion" := by
  have hfilter :
      (source_tbl.filter filt).filter
          (fun r => decide (pk_of pk_columns r ∉ key_set (dest_tbl.map (pk_of pk_columns)))) =
        (source_tbl.filter filt).filter
          (fun r => decide (pk_of pk_columns r ∉ dest_tbl.map (pk_of pk_columns))) := by
    apply List.filter_congr
    intro r _
    rw [decide_eq_decide]
    exact not_congr (mem_key_set _ _)
  refine ⟨?_, ?_, mem_get_insertable_columns cols⟩
  · simp only [perform_inserts, insert_missing_records]
    rw [hfilter]
  · simp only [perform_inserts, insert_missing_records]
    rw [List.length_map, hfilter, List.countP_eq_length_filter]

theorem count_eq_one_of_nodup_mem {l : List PKey} {k : PKey} (hnd : l.Nodup) (hk : k ∈ l) :
    l.count k = 1 := by
  induction l with
  | nil => cases hk
  | cons a l ih =>
    rw [List.nodup_cons] at hnd
    rcases List.mem_cons.mp hk with h | h
    · subst h
      rw [List.count_cons_self]
      have hz : l.count k = 0 := List.count_eq_zero.mpr hnd.1
      rw [hz]
    · have hne : k ≠ a := fun he => hnd.1 (he ▸ h)
      rw [List.count_cons_of_ne hne]
      exact ih hnd.2 h

/-- C1: the delete phase fetches both primary-key sets with the same row
filter; a key is queued for deletion exactly when some in-scope
destination row carries it and no in-scope source row does, each such key
is queued exactly once (destination keys unique), and the key of a
destination row outside the filter scope is never queued. -/
theorem delete_phase_filter_scoped (pk_columns : List String) (filt : Row → Bool)
    (source_tbl dest_tbl : List Row)
    (hnd : (dest_tbl.map (pk_of pk_columns)).Nodup) :
    (∀ k : PKey,
      k ∈ perform_deletes pk_columns filt source_tbl dest_tbl ↔
        ((∃ d ∈ dest_tbl, filt d = true ∧ pk_of pk_columns d = k) ∧
          ∀ s ∈ source_tbl, filt s = true → pk_of pk_columns s ≠ k)) ∧
    (∀ k : PKey,
      ((∃ d ∈ dest_tbl, filt d = true ∧ pk_of pk_columns d = k) ∧
          ∀ s ∈ source_tbl, filt s = true → pk_of pk_columns s ≠ k) →
        (perform_deletes pk_columns filt source_tbl dest_tbl).count k = 1) ∧
    (∀ d ∈ dest_tbl, filt d = false →
      pk_of pk_columns d ∉ perform_deletes pk_columns filt source_tbl dest_tbl) := by
  have ha : ∀ k : PKey,
      k ∈ perform_deletes pk_columns filt source_tbl dest_tbl ↔
        ((∃ d ∈ dest_tbl, filt d = true ∧ pk_of pk_columns d = k) ∧
          ∀ s ∈ source_tbl, filt s = true → pk_of pk_columns s ≠ k) := by
    intro k
    simp only [perform_deletes, List.mem_filter, List.mem_map, decide_eq_true_eq, mem_key_set]
    constructor
    · rintro ⟨⟨d, ⟨hdm, hdf⟩, hdk⟩, hns⟩
      refine ⟨⟨d, hdm, hdf, hdk⟩, ?_⟩
      intro s hs hf he
      exact hns ⟨s, ⟨hs, hf⟩, he⟩
    · rintro ⟨⟨d, hdm, hdf, hdk⟩, hns⟩
      refine ⟨⟨d, ⟨hdm, hdf⟩, hdk⟩, ?_⟩
      rintro ⟨s, ⟨hs, hf⟩, he⟩
      exact hns s hs hf he
  have hnodup : (perform_deletes pk_columns filt source_tbl dest_tbl).Nodup := by
    simp only [perform_deletes]
    apply List.Nodup.filter
    exact ((List.filter_sublist dest_tbl).map (pk_of pk_columns)).nodup hnd
  refine ⟨ha, ?_, ?_⟩
  · intro k hk
    exact count_eq_one_of_nodup_mem hnodup ((ha k).mpr hk)
  · intro d hd hf hmem
    rcases (ha _).mp hmem with ⟨⟨e, hem, hef, hek⟩, _⟩
    have hde : e = d := List.inj_on_of_nodup_map hnd hem hd hek
    rw [hde] at hef
    rw [hef] at hf
    cases hf

/-- C3: the update phase queues exactly the filter-scoped source rows
that match a destination row by primary key and differ from it in at
least one compare column, and the compare-column set omits no
non-primary-key column of the fetched (insertable-column) row. -/
theorem update_phase_compares_all_nonkey_columns (cols : List Column)
    (pk_columns : List String) (filt : Row → Bool) (source_tbl dest_tbl : List Row)
    (hnd : (dest_tbl.map (pk_of pk_columns)).Nodup) :
    perform_updates cols pk_columns filt source_tbl dest_tbl =
      (source_tbl.filter filt).filter
        (fun s => decide (∃ d ∈ dest_tbl, pk_of pk_columns d = pk_of pk_columns s ∧
          ∃ c ∈ compare_columns cols pk_columns, s c ≠ d c)) ∧
    (perform_updates cols pk_columns filt source_tbl dest_tbl).length =
      (source_tbl.filter filt).countP
        (fun s => decide (∃ d ∈ dest_tbl, pk_of pk_columns d = pk_of pk_columns s ∧
          ∃ c ∈ compare_columns cols pk_columns, s c ≠ d c)) ∧
    ∀ c : String, c ∈ compare_columns cols pk_columns ↔
      c ∈ get_insertable_columns cols ∧ c ∉ pk_columns := by
  have hmain : perform_updates cols pk_columns filt source_tbl dest_tbl =
      (source_tbl.filter filt).filter
        (fun s => decide (∃ d ∈ dest_tbl, pk_of pk_columns d = pk_of pk_columns s ∧
          ∃ c ∈ compare_columns cols pk_columns, s c ≠ d c)) := by
    simp only [perform_updates]
    by_cases hcc : (compare_columns cols pk_columns).isEmpty
    · rw [if_pos hcc]
      rw [List.isEmpty_iff] at hcc
      symm
      rw [List.filter_eq_nil_iff]
      intro s _
      rw [hcc]
      simp
    · rw [if_neg hcc]
      apply List.filter_congr
      intro s _
      cases hdd : dest_dict pk_columns dest_tbl (pk_of pk_columns s) with
      | none =>
        show false = decide (∃ d ∈ dest_tbl, pk_of pk_columns d = pk_of pk_columns s ∧
          ∃ c ∈ compare_columns cols pk_columns, s c ≠ d c)
        symm
        rw [decide_eq_false_iff_not]
        rintro ⟨d, hdm, hdpk, -⟩
        have : dest_dict pk_columns dest_tbl (pk_of pk_columns s) = some d := by
          rw [← hdpk]
          exact dest_dict_eq_some pk_columns dest_tbl d hnd hdm
        rw [hdd] at this
        cases this
      | some d =>
        show ((compare_columns cols pk_columns).any fun c => decide (s c ≠ d c)) =
          decide (∃ e ∈ dest_tbl, pk_of pk_columns e = pk_of pk_columns s ∧
            ∃ c ∈ compare_columns cols pk_columns, s c ≠ e c)
        have hdmem := dest_dict_some_mem pk_columns dest_tbl _ d hdd
        have hiff : ((compare_columns cols pk_columns).any
              (fun c => decide (s c ≠ d c)) = true) ↔
            (∃ e ∈ dest_tbl, pk_of pk_columns e = pk_of pk_columns s ∧
              ∃ c ∈ compare_columns cols pk_columns, s c ≠ d c) := by
          rw [List.any_eq_true]
          constructor
          · rintro ⟨c, hc, hne⟩
            exact ⟨d, hdmem.1, hdmem.2, c, hc, of_decide_eq_true hne⟩
          · rintro ⟨e, -, -, c, hc, hne⟩
            exact ⟨c, hc, decide_eq_true hne⟩
        have huniq : ∀ e ∈ dest_tbl, pk_of pk_columns e = pk_of pk_columns s → e = d := by
          intro e hem hepk
          exact List.inj_on_of_nodup_map hnd hem hdmem.1 (hepk.trans hdmem.2.symm)
        have hiff2 : ((compare_columns cols pk_columns).any
              (fun c => decide (s c ≠ d c)) = true) ↔
            (∃ e ∈ dest_tbl, pk_of pk_columns e = pk_of pk_columns s ∧
              ∃ c ∈ compare_columns cols pk_columns, s c ≠ e c) := by
          rw [hiff]
          constructor
          · rintro ⟨e, hem, hepk, hc⟩
            exact ⟨d, hdmem.1, hdmem.2, hc⟩
          · rintro ⟨e, hem, hepk, hc⟩
            rw [huniq e hem hepk] at hc
            exact ⟨e, hem, hepk, hc⟩
        cases hb : (compare_columns cols pk_columns).any (fun c => decide (s c ≠ d c)) with
        | false =>
          symm
          rw [decide_eq_false_iff_not]
          intro hp
          have := hiff2.mpr hp
          rw [hb] at this
          cases this
        | true =>
          symm
          rw [decide_eq_true_eq]
          exact hiff2.mp hb
  refine ⟨hmain, ?_, ?_⟩
  · rw [hmain, List.countP_eq_length_filter]
  · intro c
    simp [compare_columns, List.mem_filter]

/-- C4: whatever change-detection strategy is selected, the diff-and-apply
sequence invokes the three phases as inserts, then updates, then deletes,
with the delete phase always last. -/
theorem diff_phases_fixed_order (change_detection_strategy : String) (cols : List Column)
    (pk_columns : List String) (filt : Row → Bool) (source_tbl dest_tbl : List Row) :
    (run_sync_strategy change_detection_strategy cols pk_columns filt
        source_tbl dest_tbl).trace =
      [SyncPhase.inserts, SyncPhase.updates, SyncPhase.deletes] ∧
    (run_sync_strategy change_detection_strategy cols pk_columns filt
        source_tbl dest_tbl).trace.getLast? = some SyncPhase.deletes := by
  unfold run_sync_strategy
  split <;> exact ⟨rfl, rfl⟩

/-- C5: the rowversion-strategy and hash-strategy sync bodies are
extensionally equal: same insert, update and delete queues, same
statistics, same phase trace. -/
theorem rowversion_hash_strategies_equal (cols : List Column) (pk_columns : List String)
    (filt : Row → Bool) (source_tbl dest_tbl : List Row) :
    sync_with_rowversion cols pk_columns filt source_tbl dest_tbl =
      sync_with_hash cols pk_columns filt source_tbl dest_tbl :=
  rfl

/-- C6: the configured primary-key list wins when non-empty; otherwise the
source constraint columns are returned ordered by key ordinal; when both
are empty the resolution fails with the no-primary-key error. -/
theorem primary_key_resolution (configured : List String)
    (pk_constraint_rows : List (String × Nat)) :
    (configured ≠ [] →
      get_primary_key_columns configured pk_constraint_rows = Except.ok configured) ∧
    (configured = [] → pk_constraint_rows ≠ [] →
      get_primary_key_columns configured pk_constraint_rows =
        Except.ok ((List.insertionSort ordinal_le pk_constraint_rows).map Prod.fst) ∧
      (List.insertionSort ordinal_le pk_constraint_rows).Sorted ordinal_le ∧
      (List.insertionSort ordinal_le pk_constraint_rows).Perm pk_constraint_rows) ∧
    (configured = [] → pk_constraint_rows = [] →
      get_primary_key_columns configured pk_constraint_rows =
        Except.error
          "No se pudo detectar clave primaria. Configure manualmente las columnas PK.") := by
  refine ⟨?_, ?_, ?_⟩
  · intro h
    simp only [get_primary_key_columns]
    rw [if_pos h]
  · intro hc hr
    subst hc
    have hperm := List.perm_insertionSort ordinal_le pk_constraint_rows
    have hne : (List.insertionSort ordinal_le pk_constraint_rows).map Prod.fst ≠ [] := by
      intro h
      apply hr
      have hsnil : List.insertionSort ordinal_le pk_constraint_rows = [] :=
        List.map_eq_nil_iff.mp h
      rw [hsnil] at hperm
      exact (hperm.symm.eq_nil)
    refine ⟨?_, List.sorted_insertionSort ordinal_le pk_constraint_rows, hperm⟩
    simp only [get_primary_key_columns]
    rw [if_neg (fun h => h rfl), if_neg hne]
  · intro hc hr
    subst hc
    subst hr
    rfl

/-- Accumulator-generalized characterization of the orchestrator loop. -/
theorem synchronize_tables_loop_spec (run : TableSyncConfig → Except String SyncStats)
    (l : List TableSyncConfig) (acc : TotalStats) :
    synchronize_tables_loop run l acc =
      { total_tables := acc.total_tables
        successful := acc.successful +
          l.countP (fun c => is_attempted c && except_ok (run c))
        failed := acc.failed +
          l.countP (fun c => is_attempted c && !except_ok (run c))
        total_inserted := acc.total_inserted +
          ((l.filter is_attempted).map (fun c => (ok_stats (run c)).inserted)).sum
        total_updated := acc.total_updated +
          ((l.filter is_attempted).map (fun c => (ok_stats (run c)).updated)).sum
        total_deleted := acc.total_deleted +
          ((l.filter is_attempted).map (fun c => (ok_stats (run c)).deleted)).sum
        errors := acc.errors ++
          (l.filter (fun c => is_attempted c && !except_ok (run c))).map
            (fun c => c.full_name ++ ": " ++ err_text (run c)) } := by
  induction l generalizing acc with
  | nil => simp [synchronize_tables_loop]
  | cons config rest ih =>
    by_cases ha : (config.is_selected && config.sync_enabled) = true
    · have hpa : is_attempted config = true := ha
      cases hr : run config with
      | ok stats =>
        have hok : except_ok (run config) = true := by rw [hr]; rfl
        have hst : ok_stats (run config) = stats := by rw [hr]; rfl
        have hstep : synchronize_tables_loop run (config :: rest) acc =
            synchronize_tables_loop run rest
              { acc with
                successful := acc.successful + 1
                total_inserted := acc.total_inserted + stats.inserted
                total_updated := acc.total_updated + stats.updated
                total_deleted := acc.total_deleted + stats.deleted } := by
          simp only [synchronize_tables_loop]
          rw [if_pos ha, hr]
        rw [hstep, ih]
        simp [hpa, hok, hst, List.countP_cons, List.filter_cons]
        omega
      | error e =>
        have hok : except_ok (run config) = false := by rw [hr]; rfl
        have hst : ok_stats (run config) = ⟨0, 0, 0, 0⟩ := by rw [hr]; rfl
        have herr : err_text (run config) = e := by rw [hr]; rfl
        have hstep : synchronize_tables_loop run (config :: rest) acc =
            synchronize_tables_loop run rest
              { acc with
                failed := acc.failed + 1
                errors := acc.errors ++ [config.full_name ++ ": " ++ e] } := by
          simp only [synchronize_tables_loop]
          rw [if_pos ha, hr]
        rw [hstep, ih]
        simp [hpa, hok, hst, herr, List.countP_cons, List.filter_cons]
        omega
    · have hpa : is_attempted config = false := Bool.eq_false_iff.mpr ha
      have hstep : synchronize_tables_loop run (config :: rest) acc =
          synchronize_tables_loop run rest acc := by
        simp only [synchronize_tables_loop]
        rw [if_neg ha]
      rw [hstep, ih]
      simp [hpa, List.countP_cons, List.filter_cons]

/-- C7 (amended): the orchestrator processes exactly the selected and
enabled configurations in input order, never raises, and returns an
aggregate whose table-count field is the length of the whole input list
(attempted or not), together with succeeded and failed counts, summed
insert/update/delete totals, and the per-table error strings in input
order. -/
theorem orchestrator_aggregate_characterization
    (run : TableSyncConfig → Except String SyncStats)
    (table_configs : List TableSyncConfig) :
    synchronize_tables run table_configs =
      { total_tables := table_configs.length
        successful := table_configs.countP (fun c => is_attempted c && except_ok (run c))
        failed := table_configs.countP (fun c => is_attempted c && !except_ok (run c))
        total_inserted := ((table_configs.filter is_attempted).map
          (fun c => (ok_stats (run c)).inserted)).sum
        total_updated := ((table_configs.filter is_attempted).map
          (fun c => (ok_stats (run c)).updated)).sum
        total_deleted := ((table_configs.filter is_attempted).map
          (fun c => (ok_stats (run c)).deleted)).sum
        errors := (table_configs.filter (fun c => is_attempted c && !except_ok (run c))).map
          (fun c => c.full_name ++ ": " ++ err_text (run c)) } := by
  unfold synchronize_tables
  rw [synchronize_tables_loop_spec]
  simp

/-- C7 counterexample: with one configuration that is not selected,
nothing is attempted (the attempted count is 0), yet the aggregate's
table-count field reports 1 and its succeeded/failed fields are 0, so the
aggregate does not contain the number of tables attempted. -/
theorem orchestrator_counts_unattempted_configs :
    (synchronize_tables (fun _ => Except.ok ⟨7, 0, 0, 0⟩)
      [{ full_name := "dbo.Orders", is_selected := false, sync_enabled := true }]).total_tables
        = 1 ∧
    List.countP is_attempted
      [{ full_name := "dbo.Orders", is_selected := false, sync_enabled := true }] = 0 ∧
    (synchronize_tables (fun _ => Except.ok ⟨7, 0, 0, 0⟩)
      [{ full_name := "dbo.Orders", is_selected := false, sync_enabled := true }]).successful
        = 0 ∧
    (synchronize_tables (fun _ => Except.ok ⟨7, 0, 0, 0⟩)
      [{ full_name := "dbo.Orders", is_selected := false, sync_enabled := true }]).failed
        = 0 :=
  ⟨rfl, rfl, rfl, rfl⟩

/-- C8: the update-status operation adds the passed non-negative amounts,
so the stored counters never decrease and a positive counter never
returns to zero through it; only the explicit reset operation zeroes the
counters. -/
theorem ledger_counters_monotone (m : SyncMetadata) (status : String)
    (records_inserted records_updated records_deleted : Int)
    (error_message : Option String)
    (hi : 0 ≤ records_inserted) (hu : 0 ≤ records_updated) (hd : 0 ≤ records_deleted) :
    (m.records_inserted ≤ (update_sync_status m status records_inserted records_updated
        records_deleted error_message).records_inserted ∧
      m.records_updated ≤ (update_sync_status m status records_inserted records_updated
        records_deleted error_message).records_updated ∧
      m.records_deleted ≤ (update_sync_status m status records_inserted records_updated
        records_deleted error_message).records_deleted) ∧
    ((update_sync_status m status records_inserted records_updated records_deleted
        error_message).records_inserted = m.records_inserted + records_inserted ∧
      (update_sync_status m status records_inserted records_updated records_deleted
        error_message).records_updated = m.records_updated + records_updated ∧
      (update_sync_status m status records_inserted records_updated records_deleted
        error_message).records_deleted = m.records_deleted + records_deleted) ∧
    ((reset_table_metadata m).records_inserted = 0 ∧
      (reset_table_metadata m).records_updated = 0 ∧
      (reset_table_metadata m).records_deleted = 0) ∧
    (0 < m.records_inserted →
      0 < (update_sync_status m status records_inserted records_updated records_deleted
        error_message).records_inserted) := by
  cases error_message <;>
    refine ⟨⟨?_, ?_, ?_⟩, ⟨?_, ?_, ?_⟩, ⟨?_, ?_, ?_⟩, fun hpos => ?_⟩ <;>
    (simp only [update_sync_status, reset_table_metadata]; try omega)

/-- C9: variable-length character/binary types render MAX on the -1
sentinel and otherwise the stored byte length, halved for the n-prefixed
double-byte types; decimal/numeric render precision and scale;
time/datetime2/datetimeoffset render the fractional-seconds scale; every
other type renders bare. -/
theorem column_type_rendering_rules (col : ColumnTypeInfo) :
    (col.type_name ∈ (["char", "varchar", "nchar", "nvarchar", "binary", "varbinary"] : List String) →
      col.max_length = -1 →
      get_column_type col = "[" ++ col.type_name ++ "](MAX)") ∧
    (col.type_name ∈ (["nchar", "nvarchar"] : List String) → col.max_length ≠ -1 →
      get_column_type col =
        "[" ++ col.type_name ++ "](" ++ toString (Int.fdiv col.max_length 2) ++ ")") ∧
    (col.type_name ∈ (["char", "varchar", "binary", "varbinary"] : List String) →
      col.max_length ≠ -1 →
      get_column_type col = "[" ++ col.type_name ++ "](" ++ toString col.max_length ++ ")") ∧
    (col.type_name ∈ (["decimal", "numeric"] : List String) →
      get_column_type col =
        "[" ++ col.type_name ++ "](" ++ toString col.precision ++ "," ++ toString col.scale ++ ")") ∧
    (col.type_name ∈ (["time", "datetime2", "datetimeoffset"] : List String) →
      get_column_type col = "[" ++ col.type_name ++ "](" ++ toString col.scale ++ ")") ∧
    (col.type_name ∉ (["char", "varchar", "nchar", "nvarchar", "binary", "varbinary"] : List String) →
      col.type_name ∉ (["decimal", "numeric"] : List String) →
      col.type_name ∉ (["time", "datetime2", "datetimeoffset"] : List String) →
      get_column_type col = "[" ++ col.type_name ++ "]") := by
  refine ⟨?_, ?_, ?_, ?_, ?_, ?_⟩
  · intro hmem hml
    simp only [get_column_type]
    rw [if_pos hmem, if_pos hml]
  · intro hmem hml
    have h2 : col.type_name = "nchar" ∨ col.type_name = "nvarchar" := by
      simpa using hmem
    have hmem6 :
        col.type_name ∈ (["char", "varchar", "nchar", "nvarchar", "binary", "varbinary"] : List String) := by
      rcases h2 with h | h <;> simp [h]
    have hsw : starts_with_n col.type_name = true := by
      rcases h2 with h | h <;> rw [h] <;> decide
    simp only [get_column_type]
    rw [if_pos hmem6, if_neg hml, if_pos hsw]
  · intro hmem hml
    have h4 : col.type_name = "char" ∨ col.type_name = "varchar" ∨
        col.type_name = "binary" ∨ col.type_name = "varbinary" := by
      simpa using hmem
    have hmem6 :
        col.type_name ∈ (["char", "varchar", "nchar", "nvarchar", "binary", "varbinary"] : List String) := by
      rcases h4 with h | h | h | h <;> simp [h]
    have hsw : starts_with_n col.type_name = false := by
      rcases h4 with h | h | h | h <;> rw [h] <;> decide
    simp only [get_column_type]
    rw [if_pos hmem6, if_neg hml, if_neg (by rw [hsw]; exact fun h => Bool.false_ne_true h)]
  · intro hmem
    have h2 : col.type_name = "decimal" ∨ col.type_name = "numeric" := by
      simpa using hmem
    have hn6 :
        col.type_name ∉ (["char", "varchar", "nchar", "nvarchar", "binary", "varbinary"] : List String) := by
      rcases h2 with h | h <;> simp [h]
    simp only [get_column_type]
    rw [if_neg hn6, if_pos hmem]
  · intro hmem
    have h3 : col.type_name = "time" ∨ col.type_name = "datetime2" ∨
        col.type_name = "datetimeoffset" := by
      simpa using hmem
    have hn6 :
        col.type_name ∉ (["char", "varchar", "nchar", "nvarchar", "binary", "varbinary"] : List String) := by
      rcases h3 with h | h | h <;> simp [h]
    have hn2 : col.type_name ∉ (["decimal", "numeric"] : List String) := by
      rcases h3 with h | h | h <;> simp [h]
    simp only [get_column_type]
    rw [if_neg hn6, if_neg hn2, if_pos hmem]
  · intro hn6 hn2 hn3
    simp only [get_column_type]
    rw [if_neg hn6, if_neg hn2, if_neg hn3]

/-- C10: when the strategy method raises, the error handler of
`synchronize` records `ERROR` to the ledger with counter increments of
exactly zero (the per-run stats variable still holds its initial zeros)
and re-raises the error. -/
theorem error_path_records_zero_increments (ledger : SyncMetadata) (e : String) :
    (synchronize_outcome ledger (Except.error e)).1.records_inserted =
      ledger.records_inserted ∧
    (synchronize_outcome ledger (Except.error e)).1.records_updated =
      ledger.records_updated ∧
    (synchronize_outcome ledger (Except.error e)).1.records_deleted =
      ledger.records_deleted ∧
    (synchronize_outcome ledger (Except.error e)).1.last_sync_status = "ERROR" ∧
    (synchronize_outcome ledger (Except.error e)).1.last_error_message = some e ∧
    (synchronize_outcome ledger (Except.error e)).2 = Except.error e := by
  simp [synchronize_outcome, update_sync_status]

/-- Concrete witness row with an `id` and a `region` column. -/
def wrow (i reg : Int) : Row :=
  fun c => if c = "id" then i else if c = "region" then reg else 0

/-- Concrete witness column catalog: plain `id` key and `region` payload. -/
def wcols : List Column :=
  [⟨"id", false, false, "int"⟩, ⟨"region", false, false, "int"⟩]

/-- Concrete witness ledger row. -/
def wledger : SyncMetadata :=
  ⟨"dbo", "Clients", "SUCCESS", 3, 4, 5, none, none, none⟩

/-- Witness for C1: destination holds an in-scope matched row, an
in-scope orphan (deleted) and an out-of-scope orphan (kept). -/
theorem delete_phase_filter_scoped_witness :
    (([wrow 1 1, wrow 2 1, wrow 3 2] : List Row).map (pk_of ["id"])).Nodup ∧
    ((∀ k : PKey,
      k ∈ perform_deletes ["id"] (fun r => decide (r "region" = 1)) [wrow 1 1]
          [wrow 1 1, wrow 2 1, wrow 3 2] ↔
        ((∃ d ∈ ([wrow 1 1, wrow 2 1, wrow 3 2] : List Row),
            decide (d "region" = 1) = true ∧ pk_of ["id"] d = k) ∧
          ∀ s ∈ ([wrow 1 1] : List Row), decide (s "region" = 1) = true →
            pk_of ["id"] s ≠ k)) ∧
    (∀ k : PKey,
      ((∃ d ∈ ([wrow 1 1, wrow 2 1, wrow 3 2] : List Row),
          decide (d "region" = 1) = true ∧ pk_of ["id"] d = k) ∧
        ∀ s ∈ ([wrow 1 1] : List Row), decide (s "region" = 1) = true →
          pk_of ["id"] s ≠ k) →
        (perform_deletes ["id"] (fun r => decide (r "region" = 1)) [wrow 1 1]
          [wrow 1 1, wrow 2 1, wrow 3 2]).count k = 1) ∧
    (∀ d ∈ ([wrow 1 1, wrow 2 1, wrow 3 2] : List Row),
      decide (d "region" = 1) = false →
        pk_of ["id"] d ∉ perform_deletes ["id"] (fun r => decide (r "region" = 1))
          [wrow 1 1] [wrow 1 1, wrow 2 1, wrow 3 2])) :=
  ⟨by decide,
   delete_phase_filter_scoped ["id"] (fun r => decide (r "region" = 1))
     [wrow 1 1] [wrow 1 1, wrow 2 1, wrow 3 2] (by decide)⟩

/-- Witness for C3: source row with key 2 differs from destination in the
`region` column. -/
theorem update_phase_compares_all_nonkey_columns_witness :
    (([wrow 1 10, wrow 2 99] : List Row).map (pk_of ["id"])).Nodup ∧
    (perform_updates wcols ["id"] (fun _ => true) [wrow 1 10, wrow 2 20]
        [wrow 1 10, wrow 2 99] =
      (([wrow 1 10, wrow 2 20] : List Row).filter (fun _ => true)).filter
        (fun s => decide (∃ d ∈ ([wrow 1 10, wrow 2 99] : List Row),
          pk_of ["id"] d = pk_of ["id"] s ∧
          ∃ c ∈ compare_columns wcols ["id"], s c ≠ d c)) ∧
    (perform_updates wcols ["id"] (fun _ => true) [wrow 1 10, wrow 2 20]
        [wrow 1 10, wrow 2 99]).length =
      (([wrow 1 10, wrow 2 20] : List Row).filter (fun _ => true)).countP
        (fun s => decide (∃ d ∈ ([wrow 1 10, wrow 2 99] : List Row),
          pk_of ["id"] d = pk_of ["id"] s ∧
          ∃ c ∈ compare_columns wcols ["id"], s c ≠ d c)) ∧
    ∀ c : String, c ∈ compare_columns wcols ["id"] ↔
      c ∈ get_insertable_columns wcols ∧ c ∉ (["id"] : List String)) :=
  ⟨by decide,
   update_phase_compares_all_nonkey_columns wcols ["id"] (fun _ => true)
     [wrow 1 10, wrow 2 20] [wrow 1 10, wrow 2 99] (by decide)⟩

/-- Witness for C6: a configured list wins, an auto-detected constraint is
returned in ordinal order, and the empty case fails. -/
theorem primary_key_resolution_witness :
    get_primary_key_columns ["Code", "Site"] [] = Except.ok ["Code", "Site"] ∧
    get_primary_key_columns [] [("OrderId", 1), ("LineId", 2)] =
      Except.ok ((List.insertionSort ordinal_le [("OrderId", 1), ("LineId", 2)]).map Prod.fst) ∧
    get_primary_key_columns [] [] =
      Except.error
        "No se pudo detectar clave primaria. Configure manualmente las columnas PK." :=
  ⟨(primary_key_resolution ["Code", "Site"] []).1 (by decide),
   ((primary_key_resolution [] [("OrderId", 1), ("LineId", 2)]).2.1 rfl (by decide)).1,
   (primary_key_resolution [] []).2.2 rfl rfl⟩

/-- Witness for C8 on a concrete ledger row with increments 4, 0, 2. -/
theorem ledger_counters_monotone_witness :
    ((0 : Int) ≤ 4 ∧ (0 : Int) ≤ 0 ∧ (0 : Int) ≤ 2) ∧
    ((wledger.records_inserted ≤
        (update_sync_status wledger "SUCCESS" 4 0 2 none).records_inserted ∧
      wledger.records_updated ≤
        (update_sync_status wledger "SUCCESS" 4 0 2 none).records_updated ∧
      wledger.records_deleted ≤
        (update_sync_status wledger "SUCCESS" 4 0 2 none).records_deleted) ∧
    ((update_sync_status wledger "SUCCESS" 4 0 2 none).records_inserted =
        wledger.records_inserted + 4 ∧
      (update_sync_status wledger "SUCCESS" 4 0 2 none).records_updated =
        wledger.records_updated + 0 ∧
      (update_sync_status wledger "SUCCESS" 4 0 2 none).records_deleted =
        wledger.records_deleted + 2) ∧
    ((reset_table_metadata wledger).records_inserted = 0 ∧
      (reset_table_metadata wledger).records_updated = 0 ∧
      (reset_table_metadata wledger).records_deleted = 0) ∧
    (0 < wledger.records_inserted →
      0 < (update_sync_status wledger "SUCCESS" 4 0 2 none).records_inserted)) :=
  ⟨⟨by decide, by decide, by decide⟩,
   ledger_counters_monotone wledger "SUCCESS" 4 0 2 none
     (by decide) (by decide) (by decide)⟩

/-- Witness for C9: one concrete column per rendering rule. -/
theorem column_type_rendering_rules_witness :
    get_column_type ⟨"nvarchar", -1, 0, 0⟩ = "[" ++ "nvarchar" ++ "](MAX)" ∧
    get_column_type ⟨"nvarchar", 20, 0, 0⟩ =
      "[" ++ "nvarchar" ++ "](" ++ toString (Int.fdiv 20 2) ++ ")" ∧
    get_column_type ⟨"varchar", 30, 0, 0⟩ =
      "[" ++ "varchar" ++ "](" ++ toString (30 : Int) ++ ")" ∧
    get_column_type ⟨"decimal", 9, 18, 4⟩ =
      "[" ++ "decimal" ++ "](" ++ toString 18 ++ "," ++ toString 4 ++ ")" ∧
    get_column_type ⟨"datetime2", 8, 0, 7⟩ = "[" ++ "datetime2" ++ "](" ++ toString 7 ++ ")" ∧
    get_column_type ⟨"int", 4, 10, 0⟩ = "[" ++ "int" ++ "]" :=
  ⟨(column_type_rendering_rules ⟨"nvarchar", -1, 0, 0⟩).1 (by decide) rfl,
   (column_type_rendering_rules ⟨"nvarchar", 20, 0, 0⟩).2.1 (by decide) (by decide),
   (column_type_rendering_rules ⟨"varchar", 30, 0, 0⟩).2.2.1 (by decide) (by decide),
   (column_type_rendering_rules ⟨"decimal", 9, 18, 4⟩).2.2.2.1 (by decide),
   (column_type_rendering_rules ⟨"datetime2", 8, 0, 7⟩).2.2.2.2.1 (by decide),
   (column_type_rendering_rules ⟨"int", 4, 10, 0⟩).2.2.2.2.2 (by decide) (by decide) (by decide)⟩

end Sincro
